import Mathlib

/-!
A shallow embedding of the Eventflow event bus (`eventflow/bus.py`).

The bus keeps a `defaultdict(list)` mapping event-type strings to ordered
lists of listeners.  We model the dict as an association list that
preserves insertion order (as a Python dict does), and the defaultdict
read `self._events[t]` as an operation that returns the stored list, or
inserts `(t, [])` at the end of the dict and returns `[]` when the key is
absent.  Listeners are identified by natural numbers (Python compares
functions by identity in `list.remove`); the payload `data` is modelled
as a list of string key/value pairs.  Dispatch is modelled by its trace:
`fire` returns the list of listener invocations it performs, each
carrying the single keyword argument `event=_event.as_dict()`.
-/

abbrev EventType := String

abbrev Listener := Nat

abbrev EvData := List (String × String)

/-- The `Event` class: an event type, a payload and a timestamp taken at
construction time (modelled as a natural number supplied by the caller's
clock). -/
structure Event where
  event_type : EventType
  data : EvData
  timestamp : Nat
deriving DecidableEq

/-- The metadata group of the serialized event. -/
structure Metadata where
  event_type : EventType
  timestamp : Nat
deriving DecidableEq

/-- The serialized event produced by `Event.as_dict`: a two-level
structure with a metadata group and the data group. -/
structure EventDict where
  metadata : Metadata
  data : EvData
deriving DecidableEq

/-- `Event.as_dict` from the source: returns the dict representation
of an event. -/
def Event.as_dict (e : Event) : EventDict :=
  { metadata := { event_type := e.event_type, timestamp := e.timestamp }
    data := e.data }

/-- The `EventBus` state: `self._events`, a `defaultdict(list)` mapping
event types to listener lists, modelled as an insertion-ordered
association list. -/
structure EventBus where
  events : List (EventType × List Listener)
deriving DecidableEq

/-- A defaultdict read `d[t]`: yields the stored list when the key is
present, otherwise inserts `(t, [])` at the end of the dict and yields
`[]`.  Returns the value read together with the (possibly grown) dict. -/
def ddAccess (es : List (EventType × List Listener)) (t : EventType) :
    List Listener × List (EventType × List Listener) :=
  match es.lookup t with
  | some ls => (ls, es)
  | none => ([], es ++ [(t, [])])

/-- Replace the value stored under key `t` (first matching entry) by
`ls`; models the in-place mutation of the list object held by the dict. -/
def dset : List (EventType × List Listener) → EventType → List Listener →
    List (EventType × List Listener)
  | [], _, _ => []
  | p :: ps, t, ls => if p.1 == t then (t, ls) :: ps else p :: dset ps t ls

/-- The listener list currently registered for `t`, empty when `t` is
not a key of the registry. -/
def dget0 (es : List (EventType × List Listener)) (t : EventType) :
    List Listener :=
  (es.lookup t).getD []

/-- `EventBus.append`: `self._events[event_type].append(listener)`. -/
def EventBus.append (b : EventBus) (t : EventType) (l : Listener) : EventBus :=
  let r := ddAccess b.events t
  ⟨dset r.2 t (r.1 ++ [l])⟩

/-- Python `list.remove`: delete the first occurrence of `l`, or fail
(`ValueError`) when `l` is not in the list. -/
def listRemove : List Listener → Listener → Option (List Listener)
  | [], _ => none
  | x :: xs, l => if x == l then some xs else (listRemove xs l).map (fun ys => x :: ys)

/-- Outcome of `EventBus.remove`: either success or a `ValueError`; both
carry the registry state after the call, because the defaultdict read
`self._events[event_type]` mutates the registry even when
`list.remove` then raises. -/
inductive RemoveResult where
  | ok (bus : EventBus)
  | valueError (bus : EventBus)
deriving DecidableEq

/-- The bus state carried by a `RemoveResult`. -/
def RemoveResult.bus : RemoveResult → EventBus
  | .ok b => b
  | .valueError b => b

/-- `EventBus.remove`: `self._events[event_type].remove(listener)`. -/
def EventBus.remove (b : EventBus) (t : EventType) (l : Listener) :
    RemoveResult :=
  let r := ddAccess b.events t
  match listRemove r.1 l with
  | some ls => .ok ⟨dset r.2 t ls⟩
  | none => .valueError ⟨r.2⟩

/-- The `EventBus.listeners` property:
a dict from event type to the number of its listeners, one entry per key
of `self._events`. -/
def EventBus.listeners (b : EventBus) : List (EventType × Nat) :=
  b.events.map (fun p => (p.1, p.2.length))

/-- `EventBus.__len__`: the sum of the listener-list lengths over all
keys of `self._events`. -/
def EventBus.len (b : EventBus) : Nat :=
  (b.events.map (fun p => p.2.length)).sum

/-- One listener invocation performed by dispatch: the listener called
and the single keyword argument `event=_event.as_dict()` it receives. -/
structure Call where
  listener : Listener
  event : EventDict
deriving DecidableEq

/-- `EventBus.fire`: builds `Event(event_type, data)` and calls
`f(event=_event.as_dict())` for each `f` in `self._events[event_type]`,
in list order.  Returns the trace of invocations and the bus state after
the defaultdict read. -/
def EventBus.fire (b : EventBus) (t : EventType) (data : EvData) (now : Nat) :
    List Call × EventBus :=
  let e : Event := { event_type := t, data := data, timestamp := now }
  let r := ddAccess b.events t
  (r.1.map (fun l => { listener := l, event := e.as_dict }), ⟨r.2⟩)

/-- A Python value passed as the `event_types` argument of
`fire_multiple`: a list of strings, a bare string, or a tuple of
strings. -/
inductive PyArg where
  | pyList (ts : List EventType)
  | pyStr (s : String)
  | pyTuple (ts : List EventType)
deriving DecidableEq

/-- `isinstance(event_types, List)`: true exactly for list values. -/
def isinstanceList : PyArg → Bool
  | .pyList _ => true
  | _ => false

/-- The event types carried by a `PyArg` once the isinstance check has
passed (only meaningful for `pyList`). -/
def PyArg.toListArg : PyArg → List EventType
  | .pyList ts => ts
  | .pyStr _ => []
  | .pyTuple ts => ts

/-- The loop body of `EventBus.fire_multiple`: for each event type in
order, build a fresh `Event(event_type, data)` with the same payload and
dispatch to that type's listeners. -/
def fireMany (b : EventBus) (ts : List EventType) (data : EvData) (now : Nat) :
    List Call × EventBus :=
  match ts with
  | [] => ([], b)
  | t :: rest =>
    let r := b.fire t data now
    let r2 := fireMany r.2 rest data now
    (r.1 ++ r2.1, r2.2)

/-- The `ValueError` message raised by `fire_multiple`. -/
def errMsg : String := "Argument `event_types` must be of type list."

/-- `EventBus.fire_multiple`: raises `ValueError` when `event_types` is
not a list, before any dispatch; otherwise fires every type in order
with the same data payload. -/
def EventBus.fire_multiple (b : EventBus) (arg : PyArg) (data : EvData)
    (now : Nat) : Except String (List Call × EventBus) :=
  if isinstanceList arg = false then Except.error errMsg
  else Except.ok (fireMany b arg.toListArg data now)

/-- Dispatch to a listener list when listeners may raise:
`raises f ed = true` means the call `f(event=ed)` raises.  The loop
`for f in self._events[event_type]: f(event=...)` has no handler, so the
first raising listener ends the loop; the returned flag records whether
an exception propagated, and the trace contains every call made,
the raising one included. -/
def dispatchCalls (raises : Listener → EventDict → Bool)
    (ls : List Listener) (ed : EventDict) : List Call × Bool :=
  match ls with
  | [] => ([], false)
  | l :: rest =>
    if raises l ed then ([{ listener := l, event := ed }], true)
    else
      let r := dispatchCalls raises rest ed
      ({ listener := l, event := ed } :: r.1, r.2)

/-- `EventBus.fire` when listeners may raise: the uncaught exception
propagates to the caller. -/
def fireE (raises : Listener → EventDict → Bool) (b : EventBus)
    (t : EventType) (data : EvData) (now : Nat) :
    List Call × Bool × EventBus :=
  let e : Event := { event_type := t, data := data, timestamp := now }
  let r := ddAccess b.events t
  let dr := dispatchCalls raises r.1 e.as_dict
  (dr.1, dr.2, ⟨r.2⟩)

/-- The loop of `fire_multiple` when listeners may raise: an exception
raised while dispatching one event type propagates out of the whole
loop, so no later event type is dispatched. -/
def fireManyE (raises : Listener → EventDict → Bool) (b : EventBus)
    (ts : List EventType) (data : EvData) (now : Nat) :
    List Call × Bool × EventBus :=
  match ts with
  | [] => ([], false, b)
  | t :: rest =>
    let r := fireE raises b t data now
    if r.2.1 then r
    else
      let r2 := fireManyE raises r.2.2 rest data now
      (r.1 ++ r2.1, r2.2.1, r2.2.2)

/-- Python evaluates a default-argument expression once, when the `def`
statement runs.  `data: Optional[Dict] = {}` in `Event.__init__`,
`EventBus.fire` and `EventBus.fire_multiple` therefore denotes a single
dict object, created at definition time, that is shared by every call
omitting `data`; listeners receive that same object inside the
serialized event and any mutation they make to it persists into later
calls.  `sharedDefaultObserved ms d` returns the payload observed by
each of a sequence of such calls, where `d` is the current contents of
the shared default dict and call `i`'s listeners mutate the payload by
`ms[i]`. -/
def sharedDefaultObserved : List (EvData → EvData) → EvData → List EvData
  | [], _ => []
  | m :: ms, d => d :: sharedDefaultObserved ms (m d)

/-- Modelled from the spec: "default to a freshly constructed empty
mapping per call, never a shared pre-built instance".  Under that
strategy every call omitting `data` observes an empty payload, whatever
earlier calls' listeners did to theirs. -/
def freshDefaultObserved : List (EvData → EvData) → List EvData
  | [] => []
  | _ :: ms => [] :: freshDefaultObserved ms

/-! Helper lemmas about the association-list registry. -/

theorem lookup_cons_eq {β : Type} (a k : String) (v : β) (ps : List (String × β)) :
    ((k, v) :: ps).lookup a = if a = k then some v else ps.lookup a := by
  rw [List.lookup_cons]
  by_cases h : a = k
  · simp [h]
  · have hb : (a == k) = false := beq_eq_false_iff_ne.mpr h
    simp [hb, h]

theorem lookup_append_cases {β : Type} (es fs : List (String × β)) (a : String) :
    (es ++ fs).lookup a =
      match es.lookup a with
      | some v => some v
      | none => fs.lookup a := by
  induction es with
  | nil => simp
  | cons p ps ih =>
    rcases p with ⟨k, v⟩
    by_cases h : a = k <;> simp [lookup_cons_eq, h, ih]

theorem lookup_dset_self (es : List (EventType × List Listener)) (t : EventType)
    (ls : List Listener) :
    (dset es t ls).lookup t = (es.lookup t).map (fun _ => ls) := by
  induction es with
  | nil => simp [dset]
  | cons p ps ih =>
    rcases p with ⟨k, v⟩
    by_cases h : k = t
    · subst h
      simp [dset, lookup_cons_eq]
    · have hb : (k == t) = false := beq_eq_false_iff_ne.mpr h
      simp [dset, hb, lookup_cons_eq, Ne.symm h, ih]

theorem lookup_dset_ne (es : List (EventType × List Listener)) (t t' : EventType)
    (ls : List Listener) (h : t' ≠ t) :
    (dset es t ls).lookup t' = es.lookup t' := by
  induction es with
  | nil => simp [dset]
  | cons p ps ih =>
    rcases p with ⟨k, v⟩
    by_cases hk : k = t
    · subst hk
      simp [dset, lookup_cons_eq, h, ih]
    · have hb : (k == t) = false := beq_eq_false_iff_ne.mpr hk
      by_cases h2 : t' = k <;> simp [dset, hb, lookup_cons_eq, h2, ih]

theorem keys_dset (es : List (EventType × List Listener)) (t : EventType)
    (ls : List Listener) :
    (dset es t ls).map Prod.fst = es.map Prod.fst := by
  induction es with
  | nil => simp [dset]
  | cons p ps ih =>
    rcases p with ⟨k, v⟩
    by_cases h : k = t
    · subst h
      simp [dset]
    · have hb : (k == t) = false := beq_eq_false_iff_ne.mpr h
      simp [dset, hb, ih]

theorem ddAccess_fst (es : List (EventType × List Listener)) (t : EventType) :
    (ddAccess es t).1 = dget0 es t := by
  unfold ddAccess dget0
  cases h : es.lookup t <;> simp [h]

theorem ddAccess_lookup_self (es : List (EventType × List Listener)) (t : EventType) :
    (ddAccess es t).2.lookup t = some (dget0 es t) := by
  unfold ddAccess dget0
  cases h : es.lookup t
  · simp [lookup_append_cases, h, lookup_cons_eq]
  · simp [h]

theorem ddAccess_lookup_ne (es : List (EventType × List Listener)) (t t' : EventType)
    (h : t' ≠ t) :
    (ddAccess es t).2.lookup t' = es.lookup t' := by
  unfold ddAccess
  cases hl : es.lookup t
  · simp only [lookup_append_cases]
    cases hl' : es.lookup t' <;> simp [lookup_cons_eq, h]
  · simp

/-- The total listener count as a sum over the registry entries. -/
def sumLen (es : List (EventType × List Listener)) : Nat :=
  (es.map (fun p => p.2.length)).sum

theorem len_eq_sumLen (b : EventBus) : b.len = sumLen b.events := rfl

theorem sumLen_dset (es : List (EventType × List Listener)) (t : EventType)
    (ls ls0 : List Listener) (h : es.lookup t = some ls0) :
    sumLen (dset es t ls) + ls0.length = sumLen es + ls.length := by
  induction es with
  | nil => simp at h
  | cons p ps ih =>
    rcases p with ⟨k, v⟩
    by_cases hk : k = t
    · subst hk
      rw [lookup_cons_eq] at h
      simp at h
      subst h
      simp [dset, sumLen]
      omega
    · have hb : (k == t) = false := beq_eq_false_iff_ne.mpr hk
      rw [lookup_cons_eq, if_neg (Ne.symm hk)] at h
      have := ih h
      simp [dset, hb, sumLen] at this ⊢
      omega

theorem sumLen_ddAccess (es : List (EventType × List Listener)) (t : EventType) :
    sumLen (ddAccess es t).2 = sumLen es := by
  unfold ddAccess
  cases h : es.lookup t <;> simp [sumLen]

theorem listRemove_eq_none_iff (ls : List Listener) (l : Listener) :
    listRemove ls l = none ↔ l ∉ ls := by
  induction ls with
  | nil => simp [listRemove]
  | cons x xs ih =>
    by_cases h : x = l
    · subst h
      simp [listRemove]
    · have hb : (x == l) = false := beq_eq_false_iff_ne.mpr h
      simp [listRemove, hb, Option.map_eq_none', ih, Ne.symm h]

theorem listRemove_of_mem (ls : List Listener) (l : Listener) (h : l ∈ ls) :
    ∃ ls', listRemove ls l = some ls' := by
  cases hr : listRemove ls l with
  | none => exact absurd ((listRemove_eq_none_iff ls l).mp hr) (by simp [h])
  | some ls' => exact ⟨ls', rfl⟩

theorem listRemove_decomp (ls : List Listener) (l : Listener) (ls' : List Listener)
    (h : listRemove ls l = some ls') :
    ∃ pre post, ls = pre ++ l :: post ∧ l ∉ pre ∧ ls' = pre ++ post := by
  induction ls generalizing ls' with
  | nil => simp [listRemove] at h
  | cons x xs ih =>
    by_cases hx : x = l
    · subst hx
      simp [listRemove] at h
      exact ⟨[], xs, rfl, by simp, h.symm⟩
    · have hb : (x == l) = false := beq_eq_false_iff_ne.mpr hx
      simp [listRemove, hb, Option.map_eq_some'] at h
      obtain ⟨ys, hys, hls'⟩ := h
      obtain ⟨pre, post, h1, h2, h3⟩ := ih ys hys
      refine ⟨x :: pre, post, by simp [h1], ?_, by simp [← hls', h3]⟩
      simp [h2, Ne.symm hx]

theorem listRemove_length (ls : List Listener) (l : Listener) (ls' : List Listener)
    (h : listRemove ls l = some ls') : ls'.length + 1 = ls.length := by
  obtain ⟨pre, post, h1, _, h3⟩ := listRemove_decomp ls l ls' h
  subst h1
  simp [h3]
  omega

theorem listRemove_count (ls : List Listener) (l : Listener) (ls' : List Listener)
    (h : listRemove ls l = some ls') : ls'.count l + 1 = ls.count l := by
  obtain ⟨pre, post, h1, _, h3⟩ := listRemove_decomp ls l ls' h
  subst h1
  simp [h3, List.count_append]
  omega

theorem listeners_lookup (b : EventBus) (t : EventType) :
    b.listeners.lookup t = (b.events.lookup t).map List.length := by
  show (b.events.map (fun p => (p.1, p.2.length))).lookup t = _
  induction b.events with
  | nil => simp
  | cons p ps ih =>
    rcases p with ⟨k, v⟩
    by_cases h : t = k <;> simp [lookup_cons_eq, h, ih]

/-! Claim theorems. -/

/-- Claim C1: `fire(t, data)` invokes exactly the currently-registered
listeners for `t`, in registration order, one invocation per registered
occurrence; registering the same listener twice under one type makes
`listeners` report count 2 and makes `fire` invoke it twice. -/
theorem fire_dispatches_registered_in_order (b : EventBus) (t : EventType)
    (d : EvData) (n : Nat) :
    ((b.fire t d n).1.map Call.listener = dget0 b.events t) ∧
    (((EventBus.mk []).append "t" 7 |>.append "t" 7).listeners = [("t", 2)] ∧
      ((((EventBus.mk []).append "t" 7 |>.append "t" 7).fire "t" [] 0).1.map
        Call.listener = [7, 7])) := by
  refine ⟨?_, by decide, by decide⟩
  simp [EventBus.fire, List.map_map, Function.comp_def, ddAccess_fst]

/-- Claim C2: each invoked listener receives the serialized event as its
single (keyword) argument, a two-level structure whose metadata group
carries the fired event type and timestamp and whose data group is the
payload passed to `fire`; in the greet example the listener observes
the message payload and the event type. -/
theorem fire_serialized_event_argument (b : EventBus) (t : EventType)
    (d : EvData) (n : Nat) :
    (∀ c ∈ (b.fire t d n).1,
      c.event = { metadata := { event_type := t, timestamp := n }, data := d }) ∧
    (∀ c ∈ ((EventBus.mk [("greet", [1])]).fire "greet"
        [("message", "Hello world!")] 5).1,
      c.event.data.lookup "message" = some "Hello world!" ∧
      c.event.metadata.event_type = "greet") := by
  constructor
  · intro c hc
    simp [EventBus.fire, Event.as_dict] at hc
    obtain ⟨l, _, hl⟩ := hc
    simp [← hl]
  · intro c hc
    simp [EventBus.fire, Event.as_dict, ddAccess] at hc
    subst hc
    constructor <;> rfl

/-- Witness for claim C2 at the greet example. -/
theorem fire_serialized_event_argument_wit :
    (Call.mk 1 ⟨⟨"greet", 5⟩, [("message", "Hello world!")]⟩).event.data.lookup
        "message" = some "Hello world!" ∧
    (Call.mk 1 ⟨⟨"greet", 5⟩,
        [("message", "Hello world!")]⟩).event.metadata.event_type = "greet" :=
  (fire_serialized_event_argument (EventBus.mk [("greet", [1])]) "greet"
      [("message", "Hello world!")] 5).2
    (Call.mk 1 ⟨⟨"greet", 5⟩, [("message", "Hello world!")]⟩) (by decide)


/-- Unfolding of `EventBus.append` through the defaultdict read. -/
theorem append_eq (b : EventBus) (t : EventType) (l : Listener) :
    (b.append t l).events =
      dset (ddAccess b.events t).2 t (dget0 b.events t ++ [l]) := by
  show dset (ddAccess b.events t).2 t ((ddAccess b.events t).1 ++ [l]) = _
  rw [ddAccess_fst]

/-- Unfolding of `EventBus.remove` through the defaultdict read. -/
theorem remove_eq (b : EventBus) (t : EventType) (l : Listener) :
    b.remove t l =
      match listRemove (dget0 b.events t) l with
      | some ls => RemoveResult.ok ⟨dset (ddAccess b.events t).2 t ls⟩
      | none => RemoveResult.valueError ⟨(ddAccess b.events t).2⟩ := by
  show (match listRemove (ddAccess b.events t).1 l with
        | some ls => RemoveResult.ok ⟨dset (ddAccess b.events t).2 t ls⟩
        | none => RemoveResult.valueError ⟨(ddAccess b.events t).2⟩) = _
  rw [ddAccess_fst]

/-- Unfolding of `EventBus.fire` through the defaultdict read. -/
theorem fire_eq (b : EventBus) (t : EventType) (d : EvData) (n : Nat) :
    b.fire t d n =
      ((dget0 b.events t).map
        (fun l => { listener := l
                    event := { metadata := { event_type := t, timestamp := n }
                               data := d } }),
        ⟨(ddAccess b.events t).2⟩) := by
  show ((ddAccess b.events t).1.map _, (⟨(ddAccess b.events t).2⟩ : EventBus)) = _
  rw [ddAccess_fst]
  rfl

/-- Claim C3 counterexample: `unregister` on an event type unknown to
the registry does fail, but it does not leave the registry unchanged:
the defaultdict read inserts an empty listener sequence for that type
before `list.remove` raises. -/
theorem remove_unknown_type_mutates_registry :
    (EventBus.mk []).remove "new:patient" 0 =
      RemoveResult.valueError (EventBus.mk [("new:patient", [])]) ∧
    ((EventBus.mk []).remove "new:patient" 0).bus ≠ EventBus.mk [] := by
  decide

/-- Claim C3 amended: `unregister(t, L)` removes the first matching
occurrence of `L` from `t`'s sequence when present, leaving other types
untouched; it fails with a ValueError when `L` is not in `t`'s
sequence, and on such a failure no listener is removed: the registry is
unchanged when `t` was already a key, but when `t` was unknown the
registry gains an empty sequence for `t` (defaultdict side effect). -/
theorem remove_first_occurrence_or_fail (b : EventBus) (t : EventType)
    (l : Listener) :
    (l ∈ dget0 b.events t →
      ∃ pre post b', dget0 b.events t = pre ++ l :: post ∧ l ∉ pre ∧
        b.remove t l = RemoveResult.ok b' ∧
        dget0 b'.events t = pre ++ post ∧
        ∀ t', t' ≠ t → b'.events.lookup t' = b.events.lookup t') ∧
    (l ∉ dget0 b.events t →
      ∃ b', b.remove t l = RemoveResult.valueError b' ∧
        ((b.events.lookup t).isSome → b' = b) ∧
        (b.events.lookup t = none → b'.events = b.events ++ [(t, [])])) := by
  constructor
  · intro hmem
    obtain ⟨ls', hr⟩ := listRemove_of_mem _ _ hmem
    obtain ⟨pre, post, h1, h2, h3⟩ := listRemove_decomp _ _ _ hr
    refine ⟨pre, post, ⟨dset (ddAccess b.events t).2 t ls'⟩, h1, h2, ?_, ?_, ?_⟩
    · rw [remove_eq, hr]
    · unfold dget0
      rw [lookup_dset_self, ddAccess_lookup_self]
      simp [h3]
    · intro t' ht'
      show (dset (ddAccess b.events t).2 t ls').lookup t' = _
      rw [lookup_dset_ne _ _ _ _ ht', ddAccess_lookup_ne _ _ _ ht']
  · intro hmem
    have hr : listRemove (dget0 b.events t) l = none :=
      (listRemove_eq_none_iff _ _).mpr hmem
    refine ⟨⟨(ddAccess b.events t).2⟩, ?_, ?_, ?_⟩
    · rw [remove_eq, hr]
    · intro hsome
      obtain ⟨ls, hls⟩ := Option.isSome_iff_exists.mp hsome
      show (⟨(ddAccess b.events t).2⟩ : EventBus) = b
      unfold ddAccess
      rw [hls]
    · intro hnone
      show (ddAccess b.events t).2 = _
      unfold ddAccess
      rw [hnone]

/-- Witness for the amended claim C3: removing listener 3 registered
under type a succeeds, and removing listener 4 from an empty bus
fails. -/
theorem remove_first_occurrence_or_fail_wit :
    (∃ pre post b',
      dget0 (EventBus.mk [("a", [3])]).events "a" = pre ++ 3 :: post ∧
      3 ∉ pre ∧
      (EventBus.mk [("a", [3])]).remove "a" 3 = RemoveResult.ok b' ∧
      dget0 b'.events "a" = pre ++ post ∧
      ∀ t', t' ≠ "a" →
        b'.events.lookup t' = (EventBus.mk [("a", [3])]).events.lookup t') ∧
    (∃ b', (EventBus.mk []).remove "b" 4 = RemoveResult.valueError b' ∧
      ((((EventBus.mk []) : EventBus).events.lookup "b").isSome →
        b' = EventBus.mk []) ∧
      (((EventBus.mk []) : EventBus).events.lookup "b" = none →
        b'.events = (EventBus.mk [] : EventBus).events ++ [("b", [])])) :=
  ⟨(remove_first_occurrence_or_fail (EventBus.mk [("a", [3])]) "a" 3).1 (by decide),
    (remove_first_occurrence_or_fail (EventBus.mk []) "b" 4).2 (by decide)⟩

/-- Claim C4: `fire_multiple` fails with ValueError, before any
listener is invoked (the error result carries no invocation trace),
when `event_types` is not a list, such as the bare string "12"; given
the list ["1", "2"] with A registered under "1" and B under "2" it
invokes A then B exactly once each with the same data payload. -/
theorem fire_multiple_guard_and_order (b : EventBus) (s : String)
    (A B : Listener) (d : EvData) (n : Nat) :
    (b.fire_multiple (.pyStr s) d n = Except.error errMsg) ∧
    (b.fire_multiple (.pyStr "12") d n = Except.error errMsg) ∧
    ((EventBus.mk [("1", [A]), ("2", [B])]).fire_multiple
        (.pyList ["1", "2"]) d n =
      Except.ok
        ([{ listener := A
            event := { metadata := { event_type := "1", timestamp := n }
                       data := d } },
          { listener := B
            event := { metadata := { event_type := "2", timestamp := n }
                       data := d } }],
          EventBus.mk [("1", [A]), ("2", [B])])) := by
  exact ⟨rfl, rfl, rfl⟩

/-- Claim C10: `fire_multiple` rejects every non-list argument with its
ValueError, including a tuple of event-type strings; only a list passes
the isinstance check. -/
theorem fire_multiple_rejects_nonlist (b : EventBus) (d : EvData) (n : Nat)
    (arg : PyArg) (ts : List EventType) (h : isinstanceList arg = false) :
    b.fire_multiple arg d n = Except.error errMsg ∧
    isinstanceList (PyArg.pyTuple ts) = false ∧
    isinstanceList (PyArg.pyList ts) = true := by
  refine ⟨?_, rfl, rfl⟩
  show (if isinstanceList arg = false then Except.error errMsg
        else Except.ok (fireMany b arg.toListArg d n)) = _
  rw [h]
  simp

/-- Witness for claim C10 at a concrete tuple argument. -/
theorem fire_multiple_rejects_nonlist_wit :
    (EventBus.mk [("1", [5])]).fire_multiple (.pyTuple ["1", "2"]) [] 0 =
      Except.error errMsg ∧
    isinstanceList (PyArg.pyTuple ["3"]) = false ∧
    isinstanceList (PyArg.pyList ["3"]) = true :=
  fire_multiple_rejects_nonlist (EventBus.mk [("1", [5])]) [] 0
    (.pyTuple ["1", "2"]) ["3"] (by decide)

theorem dispatchCalls_raise (raises : Listener → EventDict → Bool)
    (ed : EventDict) (pre : List Listener) (l : Listener) (post : List Listener)
    (hpre : ∀ x ∈ pre, raises x ed = false) (hl : raises l ed = true) :
    dispatchCalls raises (pre ++ l :: post) ed =
      ((pre ++ [l]).map (fun x => { listener := x, event := ed }), true) := by
  induction pre with
  | nil => simp [dispatchCalls, hl]
  | cons x xs ih =>
    have hx : raises x ed = false := hpre x (by simp)
    simp [dispatchCalls, hx, ih (fun y hy => hpre y (by simp [hy]))]

/-- Unfolding of `fireE` through the defaultdict read. -/
theorem fireE_eq (raises : Listener → EventDict → Bool) (b : EventBus)
    (t : EventType) (d : EvData) (n : Nat) :
    fireE raises b t d n =
      ((dispatchCalls raises (dget0 b.events t)
          { metadata := { event_type := t, timestamp := n }, data := d }).1,
        (dispatchCalls raises (dget0 b.events t)
          { metadata := { event_type := t, timestamp := n }, data := d }).2,
        ⟨(ddAccess b.events t).2⟩) := by
  show ((dispatchCalls raises (ddAccess b.events t).1 _).1,
        (dispatchCalls raises (ddAccess b.events t).1 _).2,
        (⟨(ddAccess b.events t).2⟩ : EventBus)) = _
  rw [ddAccess_fst]
  rfl

/-- Claim C5: a listener that raises during dispatch is not isolated by
the bus: the exception surfaces to the caller, the listeners after it in
the same type's sequence are not invoked, and in a `fire_multiple` batch
no later event type is dispatched either. -/
theorem listener_exception_aborts_dispatch
    (raises : Listener → EventDict → Bool) (b : EventBus) (t : EventType)
    (d : EvData) (n : Nat) (pre post : List Listener) (l : Listener)
    (hreg : dget0 b.events t = pre ++ l :: post)
    (hpre : ∀ x ∈ pre,
      raises x { metadata := { event_type := t, timestamp := n }, data := d }
        = false)
    (hl : raises l { metadata := { event_type := t, timestamp := n }, data := d }
        = true) :
    ((fireE raises b t d n).1.map Call.listener = pre ++ [l] ∧
      (fireE raises b t d n).2.1 = true) ∧
    (∀ rest : List EventType,
      (fireManyE raises b (t :: rest) d n).1.map Call.listener = pre ++ [l] ∧
      (fireManyE raises b (t :: rest) d n).2.1 = true) := by
  have hfe : fireE raises b t d n =
      (((pre ++ [l]).map (fun x =>
          { listener := x
            event := { metadata := { event_type := t, timestamp := n }
                       data := d } })), true, ⟨(ddAccess b.events t).2⟩) := by
    rw [fireE_eq, hreg, dispatchCalls_raise raises _ pre l post hpre hl]
  have hmain : (fireE raises b t d n).1.map Call.listener = pre ++ [l] ∧
      (fireE raises b t d n).2.1 = true := by
    rw [hfe]
    simp [List.map_map, Function.comp_def]
  refine ⟨hmain, ?_⟩
  intro rest
  have hstep : fireManyE raises b (t :: rest) d n = fireE raises b t d n := by
    show (if (fireE raises b t d n).2.1 then fireE raises b t d n
          else ((fireE raises b t d n).1 ++
              (fireManyE raises (fireE raises b t d n).2.2 rest d n).1,
            (fireManyE raises (fireE raises b t d n).2.2 rest d n).2.1,
            (fireManyE raises (fireE raises b t d n).2.2 rest d n).2.2)) = _
    rw [hmain.2]
    simp
  rw [hstep]
  exact hmain

/-- Witness for claim C5: with listeners 0, 1, 2 under type t and
listener 1 raising, only 0 and 1 are invoked, the exception propagates,
and a batch with a further type u dispatches nothing for u. -/
theorem listener_exception_aborts_dispatch_wit :
    ((fireE (fun x _ => x == 1) (EventBus.mk [("t", [0, 1, 2])]) "t" [] 0).1.map
        Call.listener = [0] ++ [1] ∧
      (fireE (fun x _ => x == 1) (EventBus.mk [("t", [0, 1, 2])]) "t" [] 0).2.1
        = true) ∧
    ((fireManyE (fun x _ => x == 1) (EventBus.mk [("t", [0, 1, 2])])
        ["t", "u"] [] 0).1.map Call.listener = [0] ++ [1] ∧
      (fireManyE (fun x _ => x == 1) (EventBus.mk [("t", [0, 1, 2])])
        ["t", "u"] [] 0).2.1 = true) :=
  ⟨(listener_exception_aborts_dispatch (fun x _ => x == 1)
      (EventBus.mk [("t", [0, 1, 2])]) "t" [] 0 [0] [2] 1
      (by decide) (by decide) (by decide)).1,
    (listener_exception_aborts_dispatch (fun x _ => x == 1)
      (EventBus.mk [("t", [0, 1, 2])]) "t" [] 0 [0] [2] 1
      (by decide) (by decide) (by decide)).2 ["u"]⟩

/-- Claim C6 counterexample: after registering and then unregistering
listener 0 under type a, type a has no currently-registered listener,
yet `listeners` still lists it, with count 0, instead of omitting it. -/
theorem listeners_keeps_empty_types :
    dget0 ((((EventBus.mk []).append "a" 0).remove "a" 0).bus).events "a" = [] ∧
    ((((EventBus.mk []).append "a" 0).remove "a" 0).bus).listeners = [("a", 0)] ∧
    [("a", 0)] ≠ ([] : List (EventType × Nat)) := by
  decide

/-- Claim C6 amended: `listeners` returns one entry per key of the
registry, in registry order, mapping the key to its listener count;
event types whose sequence has become empty stay in the registry and
are reported with count 0 rather than omitted. -/
theorem listeners_counts_every_key (b : EventBus) :
    b.listeners.map Prod.fst = b.events.map Prod.fst ∧
    (∀ t ls, b.events.lookup t = some ls →
      b.listeners.lookup t = some ls.length) := by
  constructor
  · simp [EventBus.listeners, List.map_map]
  · intro t ls h
    rw [listeners_lookup, h]
    rfl

/-- Witness for the amended claim C6 on a bus with a populated and an
empty event type. -/
theorem listeners_counts_every_key_wit :
    (EventBus.mk [("a", [1, 2]), ("b", [])]).listeners.map Prod.fst =
      (EventBus.mk [("a", [1, 2]), ("b", [])]).events.map Prod.fst ∧
    (EventBus.mk [("a", [1, 2]), ("b", [])]).listeners.lookup "b" =
      some ([] : List Listener).length :=
  ⟨(listeners_counts_every_key (EventBus.mk [("a", [1, 2]), ("b", [])])).1,
    (listeners_counts_every_key (EventBus.mk [("a", [1, 2]), ("b", [])])).2
      "b" [] (by decide)⟩

theorem ddAccess_snd_of_some (es : List (EventType × List Listener))
    (t : EventType) (ls : List Listener) (h : es.lookup t = some ls) :
    (ddAccess es t).2 = es := by
  unfold ddAccess
  rw [h]

/-- Claim C7: `register(t, L)` followed by `unregister(t, L)` always
succeeds, returns the total listener count to its prior value, and
returns both the number of occurrences of `L` under `t` and `t`'s
reported listener count to their prior values, so the pair of calls
leaves no positive count attributable to `L`. -/
theorem register_unregister_roundtrip (b : EventBus) (t : EventType)
    (l : Listener) :
    ∃ b', (b.append t l).remove t l = RemoveResult.ok b' ∧
      b'.len = b.len ∧
      (dget0 b'.events t).count l = (dget0 b.events t).count l ∧
      b'.listeners.lookup t = some (dget0 b.events t).length := by
  have hlook1 : (b.append t l).events.lookup t =
      some (dget0 b.events t ++ [l]) := by
    rw [append_eq, lookup_dset_self, ddAccess_lookup_self]
    rfl
  have hget1 : dget0 (b.append t l).events t = dget0 b.events t ++ [l] := by
    show ((b.append t l).events.lookup t).getD [] = _
    rw [hlook1]
    rfl
  have hmem : l ∈ dget0 (b.append t l).events t := by
    rw [hget1]
    simp
  obtain ⟨ls', hr⟩ := listRemove_of_mem _ _ hmem
  have hok : (b.append t l).remove t l =
      RemoveResult.ok ⟨dset (b.append t l).events t ls'⟩ := by
    rw [remove_eq, hr, ddAccess_snd_of_some _ _ _ hlook1]
  have hrlen : ls'.length + 1 = (dget0 b.events t ++ [l]).length :=
    listRemove_length _ _ _ (hget1 ▸ hr)
  have hrcount : ls'.count l + 1 = (dget0 b.events t ++ [l]).count l :=
    listRemove_count _ _ _ (hget1 ▸ hr)
  have hlen1 : (dget0 b.events t ++ [l]).length = (dget0 b.events t).length + 1 := by
    simp
  have hcount1 : (dget0 b.events t ++ [l]).count l =
      (dget0 b.events t).count l + 1 := by
    simp [List.count_append]
  have hlook2 : (dset (b.append t l).events t ls').lookup t = some ls' := by
    rw [lookup_dset_self, hlook1]
    rfl
  have hget2 :
      dget0 (⟨dset (b.append t l).events t ls'⟩ : EventBus).events t = ls' := by
    show ((dset (b.append t l).events t ls').lookup t).getD [] = ls'
    rw [hlook2]
    rfl
  refine ⟨⟨dset (b.append t l).events t ls'⟩, hok, ?_, ?_, ?_⟩
  · show sumLen (dset (b.append t l).events t ls') = sumLen b.events
    have s1 : sumLen (dset (b.append t l).events t ls') +
        (dget0 b.events t ++ [l]).length =
        sumLen (b.append t l).events + ls'.length :=
      sumLen_dset _ _ _ _ hlook1
    have s2 : sumLen (b.append t l).events + (dget0 b.events t).length =
        sumLen (ddAccess b.events t).2 + (dget0 b.events t ++ [l]).length := by
      rw [append_eq]
      exact sumLen_dset _ _ _ _ (ddAccess_lookup_self b.events t)
    have s3 : sumLen (ddAccess b.events t).2 = sumLen b.events :=
      sumLen_ddAccess b.events t
    omega
  · rw [hget2]
    omega
  · rw [listeners_lookup]
    show ((dset (b.append t l).events t ls').lookup t).map List.length = _
    rw [hlook2]
    have : ls'.length = (dget0 b.events t).length := by omega
    simp [this]

theorem ddAccess_snd_of_none (es : List (EventType × List Listener))
    (t : EventType) (h : es.lookup t = none) :
    (ddAccess es t).2 = es ++ [(t, [])] := by
  unfold ddAccess
  rw [h]

/-- Claim C9: calling `fire`, `fire_multiple` or `remove` with an event
type unknown to the registry inserts an empty listener sequence for it
(the registry is a defaultdict), after which `listeners` reports that
type with count 0 although nothing was ever registered for it. -/
theorem defaultdict_inserts_on_access (b : EventBus) (t : EventType)
    (l : Listener) (d : EvData) (n : Nat) (h : b.events.lookup t = none) :
    (b.fire t d n).2.listeners.lookup t = some 0 ∧
    ((b.remove t l).bus).listeners.lookup t = some 0 ∧
    (fireMany b [t] d n).2.listeners.lookup t = some 0 ∧
    b.fire_multiple (.pyList [t]) d n = Except.ok (fireMany b [t] d n) := by
  have hacc : (ddAccess b.events t).2 = b.events ++ [(t, [])] :=
    ddAccess_snd_of_none b.events t h
  have hlook : (b.events ++ [(t, [])]).lookup t = some [] := by
    rw [lookup_append_cases, h]
    simp [lookup_cons_eq]
  have hfire : (b.fire t d n).2.listeners.lookup t = some 0 := by
    rw [fire_eq]
    show ((⟨(ddAccess b.events t).2⟩ : EventBus).listeners).lookup t = some 0
    rw [listeners_lookup]
    show ((ddAccess b.events t).2.lookup t).map List.length = some 0
    rw [hacc, hlook]
    rfl
  have hget : dget0 b.events t = [] := by
    show (b.events.lookup t).getD [] = []
    rw [h]
    rfl
  refine ⟨hfire, ?_, ?_, rfl⟩
  · have : b.remove t l = RemoveResult.valueError ⟨(ddAccess b.events t).2⟩ := by
      rw [remove_eq, hget]
      rfl
    rw [this]
    show ((⟨(ddAccess b.events t).2⟩ : EventBus).listeners).lookup t = some 0
    rw [listeners_lookup]
    show ((ddAccess b.events t).2.lookup t).map List.length = some 0
    rw [hacc, hlook]
    rfl
  · have : (fireMany b [t] d n).2 = (b.fire t d n).2 := rfl
    rw [this]
    exact hfire

/-- Witness for claim C9 on the empty bus and the unknown type x. -/
theorem defaultdict_inserts_on_access_wit :
    ((EventBus.mk []).fire "x" [] 0).2.listeners.lookup "x" = some 0 ∧
    (((EventBus.mk []).remove "x" 0).bus).listeners.lookup "x" = some 0 ∧
    (fireMany (EventBus.mk []) ["x"] [] 0).2.listeners.lookup "x" = some 0 ∧
    (EventBus.mk []).fire_multiple (.pyList ["x"]) [] 0 =
      Except.ok (fireMany (EventBus.mk []) ["x"] [] 0) :=
  defaultdict_inserts_on_access (EventBus.mk []) "x" 0 [] 0 (by decide)

/-- Claim C8 fails on the code: `data: Optional[Dict] = {}` is evaluated
once at definition time, so every call of `fire` (or `fire_multiple`, or
`Event(...)`) that omits `data` shares one dict object.  With two
successive `fire` calls omitting `data`, a listener of the first call
that inserts key x into `event["data"]` makes the second call observe
the mutated payload, not a fresh empty mapping; `fire` itself hands
the payload object through to every listener unchanged. -/
theorem shared_default_payload_bug :
    sharedDefaultObserved
        [fun d => d ++ [("x", "1")], fun d => d ++ [("x", "1")]] [] =
      [[], [("x", "1")]] ∧
    freshDefaultObserved
        [fun d => d ++ [("x", "1")], fun d => d ++ [("x", "1")]] = [[], []] ∧
    sharedDefaultObserved
        [fun d => d ++ [("x", "1")], fun d => d ++ [("x", "1")]] [] ≠
      freshDefaultObserved
        [fun d => d ++ [("x", "1")], fun d => d ++ [("x", "1")]] ∧
    (∀ (ls : List Listener) (d : EvData) (n : Nat),
      ((EventBus.mk [("t", ls)]).fire "t" d n).1.map Call.event =
        ls.map (fun _ =>
          { metadata := { event_type := "t", timestamp := n }, data := d })) := by
  refine ⟨rfl, rfl, by decide, ?_⟩
  intro ls d n
  rw [fire_eq]
  simp [List.map_map, Function.comp_def, dget0, lookup_cons_eq]
